import Mathlib

/-!
A verification development for the ChirpChat real-time backend
(`chirpchat-backend/app`): shallow embedding of the connection /
presence / broadcast subsystem (`app/websocket/manager.py`,
`app/routers/ws.py`, `app/routers/events.py`, `app/chat/routes.py`)
and proofs about its behaviour.

Conventions of the embedding:
* user ids, chat ids and message ids are `Nat` (they stand for the
  UUID strings of the source; only equality is ever used on them);
* timestamps are `Int` seconds (the source compares `datetime`
  differences against whole-second windows; only ordering and
  subtraction are used);
* Python `dict`s are embedded as association lists that keep the
  source's insertion-order semantics: assignment to a present key
  updates it in place, assignment to an absent key appends at the
  end, `del` removes the pair;
* database tables are embedded as lists of rows; fallible inserts
  and updates take an explicit success flag standing for the
  "response object is falsy" checks of the source.
-/

namespace ChirpChat

/-! ### Association lists with Python `dict` insertion-order semantics -/

/-- `d.get(k)`: value of the first (unique) matching key. -/
def alGet {α β : Type} [DecidableEq α] (l : List (α × β)) (k : α) : Option β :=
  match l with
  | [] => none
  | (k', v) :: rest => if k' = k then some v else alGet rest k

/-- `k in d`. -/
def alHas {α β : Type} [DecidableEq α] (l : List (α × β)) (k : α) : Bool :=
  (alGet l k).isSome

/-- `d[k] = v`: update in place when the key is present, append otherwise. -/
def alSet {α β : Type} [DecidableEq α] (l : List (α × β)) (k : α) (v : β) :
    List (α × β) :=
  match l with
  | [] => [(k, v)]
  | (k', v') :: rest =>
      if k' = k then (k, v) :: rest else (k', v') :: alSet rest k v

/-- `del d[k]`: remove the first (unique) pair with this key. -/
def alDel {α β : Type} [DecidableEq α] (l : List (α × β)) (k : α) :
    List (α × β) :=
  match l with
  | [] => []
  | (k', v') :: rest => if k' = k then rest else (k', v') :: alDel rest k

/-! ### Reactions: `toggle_reaction` body shared by
`app/routers/ws.py` (lines 265-277) and
`app/chat/routes.py::react_to_message` (lines 289-303). -/

abbrev UserId := Nat
abbrev ChatId := Nat
abbrev MsgId := Nat

/-- `reactions: Dict[SupportedEmoji, List[UUID]]` of a message row. -/
abbrev Reactions := List (String × List UserId)

/-- The reaction-toggle algorithm of the source:
```
if emoji not in reactions: reactions[emoji] = []
if user_id_str in reactions[emoji]:
    reactions[emoji].remove(user_id_str)
    if not reactions[emoji]: del reactions[emoji]
else:
    reactions[emoji].append(user_id_str)
```
`List.remove` of Python removes the first occurrence, as does
`List.erase` here. -/
def toggleReaction (reactions : Reactions) (emoji : String) (uid : UserId) :
    Reactions :=
  let r1 := if alHas reactions emoji then reactions else reactions ++ [(emoji, [])]
  let v := (alGet r1 emoji).getD []
  if uid ∈ v then
    let v' := v.erase uid
    if v' = [] then alDel r1 emoji else alSet r1 emoji v'
  else
    alSet r1 emoji (v ++ [uid])

/-- Users currently reacting with `emoji` ([] when the key is absent). -/
def reactUsers (reactions : Reactions) (emoji : String) : List UserId :=
  (alGet reactions emoji).getD []

/-! ### Participant cache (`app/websocket/manager.py`, lines 11-12 and 131-161)

The `OrderedDict` is embedded as an association list in insertion/recency
order: the head is the least recently used entry, `move_to_end` re-appends
at the tail, `popitem(last=False)` drops the head. -/

def CACHE_MAX_SIZE : Nat := 100

def CACHE_TTL_SECONDS : Int := 60

/-- `participant_cache : OrderedDict[str, Tuple[datetime, List[UUID]]]`. -/
abbrev PCache := List (ChatId × (Int × List UserId))

/-- `OrderedDict.move_to_end(key)`. -/
def moveToEnd (c : PCache) (k : ChatId) : PCache :=
  match alGet c k with
  | none => c
  | some v => alDel c k ++ [(k, v)]

/-- Rows of the `chat_participants` table: `(chat_id, user_id)` pairs. -/
abbrev ParticipantRows := List (ChatId × UserId)

/-- `select("user_id").eq("chat_id", chat_id)` on `chat_participants`. -/
def chatMembers (rows : ParticipantRows) (chatId : ChatId) : List UserId :=
  (rows.filter (fun r => r.1 = chatId)).map (fun r => r.2)

/-- The cache-miss tail of `_get_chat_participants` (lines 143-158): fetch
from the DB; an empty result is cached *without* the capacity check
(line 148), a non-empty result evicts the LRU entry first when the cache
is at capacity (lines 154-156). -/
def fetchAndCache (cache : PCache) (now : Int) (chatId : ChatId)
    (rows : ParticipantRows) : List UserId × PCache :=
  let pids := chatMembers rows chatId
  if pids = [] then
    ([], alSet cache chatId (now, []))
  else
    let c1 := if CACHE_MAX_SIZE ≤ cache.length then cache.drop 1 else cache
    (pids, alSet c1 chatId (now, pids))

/-- `_get_chat_participants` (lines 131-161): fresh hit returns the cached
list and refreshes recency; an expired entry is deleted and refetched;
a miss is fetched and cached. -/
def getChatParticipants (cache : PCache) (now : Int) (chatId : ChatId)
    (rows : ParticipantRows) : List UserId × PCache :=
  match alGet cache chatId with
  | some (cachedTime, pids) =>
      if now - cachedTime < CACHE_TTL_SECONDS then
        (pids, moveToEnd cache chatId)
      else
        fetchAndCache (alDel cache chatId) now chatId rows
  | none => fetchAndCache cache now chatId rows

/-! ### Rate limiting (`app/routers/ws.py`, lines 21-28, 160-175, 225-241) -/

def MAX_MESSAGES_PER_WINDOW : Nat := 20

def MESSAGE_WINDOW_SECONDS : Int := 60

def MAX_REACTIONS_PER_WINDOW : Nat := 15

def REACTION_WINDOW_SECONDS : Int := 10

/-- The lazy prune: keep timestamps with `current - ts < window`. -/
def pruneWindow (ts : List Int) (now : Int) (window : Int) : List Int :=
  ts.filter (fun t => now - t < window)

/-- `SUPPORTED_EMOJIS` of `app/chat/schemas.py`. -/
def SUPPORTED_EMOJIS : List String :=
  ["👍", "❤️", "😂", "😮", "😢", "🙏", "🔥", "🎉", "🤔", "💯"]

/-! ### Server state and the WebSocket event handler
(`app/routers/ws.py::websocket_endpoint`) -/

/-- A row of the `messages` table, restricted to the fields the handler
reads or writes. -/
structure Message where
  id : MsgId
  chat_id : ChatId
  user_id : UserId
  text : Option String
  client_temp_id : Option String
  created_at : Int
  updated_at : Int
  reactions : Reactions
  deriving DecidableEq, Repr

/-- The state a `websocket_endpoint` invocation reads and writes: the
process-local manager maps and the two DB tables the claims are about.
(The `chats.updated_at` write and the throttled `last_seen` write touch
rows no claim mentions and are omitted.) -/
structure ServerState where
  /-- keys of `manager.active_connections`. -/
  activeConnections : List UserId
  /-- `manager.participant_cache`. -/
  participantCache : PCache
  /-- `chat_participants` table rows. -/
  dbParticipants : ParticipantRows
  /-- `messages` table rows, in insertion order. -/
  dbMessages : List Message
  /-- `user_message_timestamps`. -/
  msgTimestamps : List (UserId × List Int)
  /-- `user_reaction_timestamps`. -/
  reactTimestamps : List (UserId × List Int)
  deriving DecidableEq, Repr

/-- Outbound broadcast payloads built by the manager. -/
inductive Payload where
  | newMessage (message : Message) (chat_id : ChatId)
  | reactionUpdate (message_id : MsgId) (chat_id : ChatId) (reactions : Reactions)
  | typingIndicator (chat_id : ChatId) (user_id : UserId) (is_typing : Bool)
  deriving DecidableEq, Repr

/-- The `event_type` field of a broadcast payload. -/
def Payload.eventType : Payload → String
  | .newMessage _ _ => "new_message"
  | .reactionUpdate _ _ _ => "message_reaction_update"
  | .typingIndicator _ _ _ => "typing_indicator"

/-- One outbound transport frame: either a `send_json` on the originating
connection (the error responses of the handler) or a delivery to a
locally connected user made by `broadcast_to_users`. -/
inductive OutMsg where
  | toOrigin (event_type : String) (detail : String)
  | deliver (dst : UserId) (payload : Payload)
  deriving DecidableEq, Repr

/-- The `event_type` of an outbound frame. -/
def OutMsg.eventType : OutMsg → String
  | .toOrigin et _ => et
  | .deliver _ p => p.eventType

/-- Is this frame a `new_message` delivery to user `p`? -/
def isNewMessageDeliveredTo (p : UserId) : OutMsg → Bool
  | .deliver d (.newMessage _ _) => d = p
  | _ => false

/-- `broadcast_to_users` (manager lines 116-129): deliver the payload to
those of the requested users that are locally connected. -/
def broadcastToUsers (active : List UserId) (payload : Payload)
    (userIds : List UserId) : List OutMsg :=
  (userIds.filter (fun u => u ∈ active)).map (fun u => .deliver u payload)

/-- `broadcast_chat_message` (manager lines 163-178). -/
def broadcastChatMessage (s : ServerState) (now : Int) (chatId : ChatId)
    (msg : Message) : ServerState × List OutMsg :=
  let r := getChatParticipants s.participantCache now chatId s.dbParticipants
  let s' := { s with participantCache := r.2 }
  if r.1 = [] then (s', [])
  else (s', broadcastToUsers s'.activeConnections (.newMessage msg chatId) r.1)

/-- `broadcast_reaction_update` (manager lines 180-199). -/
def broadcastReactionUpdate (s : ServerState) (now : Int) (chatId : ChatId)
    (msg : Message) : ServerState × List OutMsg :=
  let r := getChatParticipants s.participantCache now chatId s.dbParticipants
  let s' := { s with participantCache := r.2 }
  if r.1 = [] then (s', [])
  else
    (s', broadcastToUsers s'.activeConnections
          (.reactionUpdate msg.id chatId msg.reactions) r.1)

/-- `broadcast_typing_indicator` (manager lines 201-219): the originating
user is excluded from the recipient list before delivery. -/
def broadcastTypingIndicator (s : ServerState) (now : Int) (chatId : ChatId)
    (typingUserId : UserId) (isTyping : Bool) : ServerState × List OutMsg :=
  let r := getChatParticipants s.participantCache now chatId s.dbParticipants
  let s' := { s with participantCache := r.2 }
  if r.1 = [] then (s', [])
  else
    let recipients := r.1.filter (fun p => p ≠ typingUserId)
    if recipients = [] then (s', [])
    else
      (s', broadcastToUsers s'.activeConnections
            (.typingIndicator chatId typingUserId isTyping) recipients)

/-- The `send_message` branch of `websocket_endpoint`
(`app/routers/ws.py`, lines 155-210), in source order: lazy window prune
and store-back, ceiling check, participant check, row construction with a
fresh server id (`uuid4`, passed in as `newId`), fallible insert, the
timestamp append *after* a successful insert, then
`broadcast_chat_message`.  `insertOk` stands for the truthiness of
`insert_result_obj.data`. -/
def handleSendMessage (s : ServerState) (uid : UserId) (now : Int)
    (chatId : ChatId) (text : Option String) (clientTempId : Option String)
    (newId : MsgId) (insertOk : Bool) : ServerState × List OutMsg :=
  let ts := (alGet s.msgTimestamps uid).getD []
  let pruned := pruneWindow ts now MESSAGE_WINDOW_SECONDS
  let s1 := { s with msgTimestamps := alSet s.msgTimestamps uid pruned }
  if MAX_MESSAGES_PER_WINDOW ≤ pruned.length then
    (s1, [.toOrigin "error" "You are sending messages too quickly. Please wait a moment."])
  else if (chatId, uid) ∈ s1.dbParticipants then
    let msg : Message :=
      { id := newId, chat_id := chatId, user_id := uid, text := text,
        client_temp_id := clientTempId, created_at := now, updated_at := now,
        reactions := [] }
    if insertOk then
      let s2 := { s1 with
        dbMessages := s1.dbMessages ++ [msg],
        msgTimestamps := alSet s1.msgTimestamps uid (pruned ++ [now]) }
      broadcastChatMessage s2 now chatId msg
    else
      (s1, [.toOrigin "error" "Failed to save your message to the database."])
  else
    (s1, [.toOrigin "error" "You are not a participant of this chat."])

/-- The `toggle_reaction` branch of `websocket_endpoint`
(`app/routers/ws.py`, lines 212-291), in source order: emoji validation,
lazy window prune and store-back, ceiling check, participant check,
message fetch, chat-membership check of the message, the in-memory
toggle, fallible update, the timestamp append *after* a successful
update, then `broadcast_reaction_update`.  `updateOk` stands for the
truthiness of `update_reaction_result_obj.data`. -/
def handleToggleReaction (s : ServerState) (uid : UserId) (now : Int)
    (messageId : MsgId) (chatId : ChatId) (emoji : String)
    (updateOk : Bool) : ServerState × List OutMsg :=
  if emoji ∈ SUPPORTED_EMOJIS then
    let ts := (alGet s.reactTimestamps uid).getD []
    let pruned := pruneWindow ts now REACTION_WINDOW_SECONDS
    let s1 := { s with reactTimestamps := alSet s.reactTimestamps uid pruned }
    if MAX_REACTIONS_PER_WINDOW ≤ pruned.length then
      (s1, [.toOrigin "error" "You are reacting too quickly. Please wait a moment."])
    else if (chatId, uid) ∈ s1.dbParticipants then
      match s1.dbMessages.find? (fun m => m.id = messageId) with
      | none => (s1, [.toOrigin "error" "Message not found."])
      | some msgDb =>
        if msgDb.chat_id = chatId then
          let reactions := toggleReaction msgDb.reactions emoji uid
          if updateOk then
            let updated := { msgDb with reactions := reactions, updated_at := now }
            let s2 := { s1 with
              dbMessages :=
                s1.dbMessages.map (fun m => if m.id = messageId then updated else m),
              reactTimestamps := alSet s1.reactTimestamps uid (pruned ++ [now]) }
            broadcastReactionUpdate s2 now chatId updated
          else
            (s1, [.toOrigin "error" "Failed to save your reaction."])
        else
          (s1, [.toOrigin "error" "Message does not belong to the specified chat."])
    else
      (s1, [.toOrigin "error" "You cannot react in a chat you are not part of."])
  else
    (s, [.toOrigin "error" "Invalid emoji provided."])

/-! ### Connection sessions

A user's interaction with the endpoint, at the granularity the rate-limit
claims need: `send_message` submissions, and the `finally` block of
`websocket_endpoint` (lines 346-357), which on disconnect deletes the
user's entries from `user_message_timestamps` and
`user_reaction_timestamps`. -/

/-- One step of a user's session. -/
inductive SessionEvent where
  | submit (now : Int) (chatId : ChatId) (text : Option String)
      (clientTempId : Option String) (newId : MsgId) (insertOk : Bool)
  | disconnect
  deriving DecidableEq, Repr

/-- The time of a submission (irrelevant placeholder for a disconnect). -/
def SessionEvent.time : SessionEvent → Int
  | .submit now _ _ _ _ _ => now
  | .disconnect => 0

def sessionStep (uid : UserId) (s : ServerState) :
    SessionEvent → ServerState × List OutMsg
  | .submit now chatId text ctid newId ok =>
      handleSendMessage s uid now chatId text ctid newId ok
  | .disconnect =>
      ({ s with msgTimestamps := alDel s.msgTimestamps uid,
                reactTimestamps := alDel s.reactTimestamps uid }, [])

/-- Run a session trace, accumulating all outbound frames. -/
def runSession (uid : UserId) (s : ServerState) :
    List SessionEvent → ServerState × List OutMsg
  | [] => (s, [])
  | e :: rest =>
      let r := sessionStep uid s e
      let r' := runSession uid r.1 rest
      (r'.1, r.2 ++ r'.2)

/-- The times of the submissions that were *accepted* (a message row was
persisted) along a session trace. -/
def acceptedTimes (uid : UserId) (s : ServerState) :
    List SessionEvent → List Int
  | [] => []
  | e :: rest =>
      let s' := (sessionStep uid s e).1
      (if s.dbMessages.length < s'.dbMessages.length then [e.time] else [])
        ++ acceptedTimes uid s' rest

/-! ### Presence grace period (`app/websocket/manager.py`, lines 13, 22-104
and `app/routers/ws.py`, line 350)

One user's presence lifecycle.  `pending = some ()` stands for an armed
entry in `manager.pending_offline_tasks` (a sleeping
`_perform_offline_cleanup` task); `manager.connect` pops and cancels it,
so after a reconnect there is no pending entry and a later timer wake-up
takes the cancelled path (no broadcast). -/

structure PresenceState where
  /-- the user is in `manager.active_connections`. -/
  connected : Bool
  /-- an armed entry in `manager.pending_offline_tasks`. -/
  pending : Option Unit
  /-- `users.is_online` in the shared store. -/
  isOnline : Bool
  /-- number of offline `user_presence_update` broadcasts performed. -/
  offlineBroadcasts : Nat
  /-- number of online `user_presence_update` broadcasts performed. -/
  onlineBroadcasts : Nat
  deriving DecidableEq, Repr

/-- The observable presence events for one user. -/
inductive PresenceEvent where
  /-- `manager.connect`: pop and cancel any pending offline task, register
  the connection, write `is_online=true`, broadcast online presence. -/
  | connect
  /-- transport close → `manager.schedule_graceful_disconnect`: if a
  pending task exists, return; otherwise unregister the connection and
  arm the grace timer.  The shared record is *not* yet marked offline. -/
  | disconnect
  /-- the grace timer elapses: a still-armed task writes
  `is_online=false` and broadcasts offline presence exactly once, then
  clears its entry; a cancelled/popped task does nothing. -/
  | timerFire
  deriving DecidableEq, Repr

def presenceStep (s : PresenceState) : PresenceEvent → PresenceState
  | .connect =>
      { s with pending := none, connected := true, isOnline := true,
               onlineBroadcasts := s.onlineBroadcasts + 1 }
  | .disconnect =>
      if s.pending.isSome then s
      else { s with connected := false, pending := some () }
  | .timerFire =>
      match s.pending with
      | none => s
      | some _ =>
          { s with isOnline := false, pending := none,
                   offlineBroadcasts := s.offlineBroadcasts + 1 }

def presenceRun (s : PresenceState) : List PresenceEvent → PresenceState
  | [] => s
  | e :: rest => presenceRun (presenceStep s e) rest

/-! ### Event log replay (`app/routers/events.py`, lines 83-113) -/

/-- A member of the `EVENT_LOG_KEY` sorted set, as the sync endpoint
deserializes it: the broadcast payload (kept opaque) and the target user
ids; the member's score is the envelope's sequence number. -/
structure LogEntry where
  payload : String
  target_user_ids : List UserId
  deriving DecidableEq, Repr

/-- The shared event log: `(member, score)` pairs of the sorted set, kept
in ascending score order as Redis stores them. -/
abbrev EventLog := List (LogEntry × Int)

/-- Digit run of Redis's strict integer parse (`string2ll`): consume the
remaining characters, all of which must be digits. -/
def parseNatDigitsGo : List Char → Nat → Option Nat
  | [], acc => some acc
  | c :: rest, acc =>
      if c.isDigit then parseNatDigitsGo rest (acc * 10 + (c.toNat - '0'.toNat))
      else none

/-- Redis's strict parse of an integer command argument (`string2ll`):
an optional leading `-` followed by at least one digit and nothing
else; anything else is "value is not an integer or out of range". -/
def parseIntArg : List Char → Option Int
  | [] => none
  | c :: rest =>
      if c = '-' then
        if rest = [] then none
        else (parseNatDigitsGo rest 0).map (fun n => -(n : Int))
      else (parseNatDigitsGo (c :: rest) 0).map (fun n => (n : Int))

/-- The range-start argument the source builds: `f"({since}"`. -/
def zrangeStartArg (since : Int) : List Char :=
  '(' :: (toString since).data

/-- The range-stop argument the source passes: `"+inf"`. -/
def zrangeStopArg : List Char :=
  ['+', 'i', 'n', 'f']

/-- redis-py `zrange(name, start, stop, withscores=True)` *without*
`byscore=True`: the client sends a plain index-based `ZRANGE`, so the
server parses both raw arguments as integers and replies with an error
when either fails; on success it returns the slice of the sorted set
between the (negative-aware, clamped) indexes, in stored ascending
score order. -/
def zrangeIndex (log : EventLog) (start stop : List Char) :
    Except String EventLog :=
  match parseIntArg start with
  | none => .error "value is not an integer or out of range"
  | some i =>
      match parseIntArg stop with
      | none => .error "value is not an integer or out of range"
      | some j =>
          let n : Int := (log.length : Int)
          let i' : Int := if i < 0 then max (n + i) 0 else i
          let j' : Int := min (if j < 0 then n + j else j) (n - 1)
          if i' > j' then .ok []
          else .ok ((log.take (j'.toNat + 1)).drop i'.toNat)

/-- `sync_events` (lines 83-113): issue the zrange call as the source
writes it — `redis.zrange(EVENT_LOG_KEY, f"({since}", "+inf",
withscores=True)`, an *index* range because `byscore=True` is not
passed — and, on success, keep exactly the events whose
`target_user_ids` contain the requester, attaching each score as the
`sequence` field (`{**event_data['payload'], 'sequence': int(score)}`
is embedded as the pair `(payload, sequence)`); any exception is caught
by the `except` at lines 111-113 and an empty list is returned. -/
def syncEvents (log : EventLog) (since : Int) (uid : UserId) :
    List (String × Int) :=
  match zrangeIndex log (zrangeStartArg since) zrangeStopArg with
  | .error _ => []
  | .ok pairs =>
      pairs.foldl
        (fun acc p =>
          if uid ∈ p.1.target_user_ids then acc ++ [(p.1.payload, p.2)] else acc)
        []

/-- The replay read contract the spec claims (§4.3): "scans the log for
entries with `sequence > since_sequence`, filters to only those whose
`target_user_ids` contains the requester, and returns payloads in
ascending sequence order".  A second definition following the spec's
words, to be compared with what `syncEvents` actually computes. -/
def replaySpec (log : EventLog) (since : Int) (uid : UserId) :
    List (String × Int) :=
  (log.filter (fun p => since < p.2 ∧ uid ∈ p.1.target_user_ids)).map
    (fun p => (p.1.payload, p.2))

/-! ### Sequencer (spec §4.3)

Modelled from the spec: the publishing side of the Event Sequencer &
Log is not present under `src/` — `app/routers/events.py` (line 11)
imports `BROADCAST_CHANNEL` and `EVENT_LOG_KEY` from
`app/websocket/manager.py`, but that module defines neither, and no
code under `src/` increments a sequence counter or appends to the log.
Spec §4.3: "atomically increment a shared counter to obtain `sequence`";
§5: "sequence assignment ... must be atomic (a single atomic increment
primitive), since two processes may publish concurrently."  Atomicity
means concurrent publishes linearize into a serial history of increments
on the shared counter, which is what is modelled here. -/
def publishSeq (counter : Nat) : Nat × Nat :=
  (counter + 1, counter + 1)

/-- The counter value after `n` publishes in the linearized history,
starting from `c0`. -/
def counterAfter (c0 : Nat) : Nat → Nat
  | 0 => c0
  | n + 1 => (publishSeq (counterAfter c0 n)).1

/-- The sequence assigned to the `i`-th publish (0-based) of the
linearized history. -/
def assignedSeq (c0 : Nat) (i : Nat) : Nat :=
  (publishSeq (counterAfter c0 i)).2

/-! ### Derived notions and concrete scenarios used by the theorems -/

/-- Number of timestamps inside the sliding window `(a, a + MESSAGE_WINDOW_SECONDS]`. -/
def countWindow (l : List Int) (a : Int) : Nat :=
  l.countP (fun t => a < t ∧ t ≤ a + MESSAGE_WINDOW_SECONDS)

/-- Well-formedness of a reactions mapping as the toggle paths maintain it
and as fresh messages create it (`reactions: {}`): emoji keys are unique
(a `dict`), no user appears twice under one emoji, and no emoji maps to an
empty list (the toggle deletes emptied keys). -/
def ReactionsWF (r : Reactions) : Prop :=
  (r.map Prod.fst).Nodup ∧ (∀ p ∈ r, (p.2 : List UserId).Nodup) ∧ ∀ p ∈ r, p.2 ≠ []

/-- A chat 5 whose two members 1 and 2 are both locally connected; empty
tables and maps otherwise. -/
def twoUserState : ServerState :=
  { activeConnections := [1, 2], participantCache := [],
    dbParticipants := [(5, 1), (5, 2)], dbMessages := [],
    msgTimestamps := [], reactTimestamps := [] }

/-- User 1 alone in chat 5, nobody locally connected: the smallest state
in which `send_message` submissions from user 1 are accepted. -/
def rlState : ServerState :=
  { activeConnections := [], participantCache := [], dbParticipants := [(5, 1)],
    dbMessages := [], msgTimestamps := [], reactTimestamps := [] }

/-- Twenty accepted submissions at time 0, a disconnect/reconnect (which
deletes the user's rate-limit timestamps), then twenty more submissions
at time 1 — all forty inside one sliding minute. -/
def rlTrace : List SessionEvent :=
  ((List.range 20).map (fun i => SessionEvent.submit 0 5 none none (100 + i) true))
    ++ [SessionEvent.disconnect]
    ++ ((List.range 20).map (fun i => SessionEvent.submit 1 5 none none (200 + i) true))

/-- An event log in which user 7 is addressed by sequences 10, 11 and 12
(the entry at sequence 11 also targets user 8). -/
def exLog : EventLog :=
  [(⟨"payload10", [7]⟩, 10), (⟨"payload11", [7, 8]⟩, 11), (⟨"payload12", [7]⟩, 12)]

/-! ## Association-list lemmas -/

section AList

variable {α β : Type} [DecidableEq α]

theorem alGet_alSet_self (l : List (α × β)) (k : α) (v : β) :
    alGet (alSet l k v) k = some v := by
  induction l with
  | nil => simp [alGet, alSet]
  | cons p rest ih =>
    by_cases h : p.1 = k
    · simp [alSet, alGet, h]
    · simp [alSet, alGet, h, ih]

theorem alGet_alSet_ne (l : List (α × β)) {k k' : α} (v : β) (h : k' ≠ k) :
    alGet (alSet l k v) k' = alGet l k' := by
  have h' : ¬ (k = k') := fun hh => h hh.symm
  induction l with
  | nil => simp [alGet, alSet, h']
  | cons p rest ih =>
    by_cases hp : p.1 = k
    · simp [alSet, alGet, hp, h']
    · simp [alSet, alGet, hp, ih]

theorem alGet_alDel_ne (l : List (α × β)) {k k' : α} (h : k' ≠ k) :
    alGet (alDel l k) k' = alGet l k' := by
  have h' : ¬ (k = k') := fun hh => h hh.symm
  induction l with
  | nil => simp [alDel]
  | cons p rest ih =>
    by_cases hp : p.1 = k
    · simp [alDel, alGet, hp, h']
    · simp [alDel, alGet, hp, ih]

theorem alGet_eq_none_of_not_mem (l : List (α × β)) {k : α}
    (h : k ∉ l.map Prod.fst) : alGet l k = none := by
  induction l with
  | nil => simp [alGet]
  | cons p rest ih =>
    simp only [List.map_cons, List.mem_cons] at h
    push_neg at h
    have h1 : ¬ (p.1 = k) := fun hh => h.1 hh.symm
    simp [alGet, h1, ih h.2]

theorem alGet_alDel_self (l : List (α × β)) (k : α)
    (h : (l.map Prod.fst).Nodup) : alGet (alDel l k) k = none := by
  induction l with
  | nil => simp [alDel, alGet]
  | cons p rest ih =>
    simp only [List.map_cons, List.nodup_cons] at h
    by_cases hp : p.1 = k
    · have : alDel (p :: rest) k = rest := by simp [alDel, hp]
      rw [this]
      exact alGet_eq_none_of_not_mem rest (hp ▸ h.1)
    · simp [alDel, alGet, hp, ih h.2]

theorem alGet_append (l l' : List (α × β)) (k : α) :
    alGet (l ++ l') k =
      match alGet l k with
      | some v => some v
      | none => alGet l' k := by
  induction l with
  | nil => simp [alGet]
  | cons p rest ih =>
    by_cases hp : p.1 = k
    · simp [alGet, hp]
    · simp [alGet, hp, ih]

theorem mem_of_alGet {l : List (α × β)} {k : α} {v : β}
    (h : alGet l k = some v) : (k, v) ∈ l := by
  induction l with
  | nil => simp [alGet] at h
  | cons p rest ih =>
    by_cases hp : p.1 = k
    · simp only [alGet, hp, if_pos] at h
      obtain ⟨k', v'⟩ := p
      cases hp
      cases h
      exact List.mem_cons_self _ _
    · simp only [alGet, hp, if_neg, not_false_iff] at h
      exact List.mem_cons_of_mem _ (ih h)

theorem mem_keys_of_alGet_isSome {l : List (α × β)} {k : α}
    (h : (alGet l k).isSome) : k ∈ l.map Prod.fst := by
  obtain ⟨v, hv⟩ := Option.isSome_iff_exists.mp h
  exact List.mem_map.mpr ⟨(k, v), mem_of_alGet hv, rfl⟩

theorem keys_alSet_of_has (l : List (α × β)) (k : α) (v : β)
    (h : alHas l k) : (alSet l k v).map Prod.fst = l.map Prod.fst := by
  induction l with
  | nil => simp [alHas, alGet] at h
  | cons p rest ih =>
    by_cases hp : p.1 = k
    · simp [alSet, hp]
    · simp only [alHas, alGet, hp, if_neg, not_false_iff] at h
      simp [alSet, hp, ih h]

theorem keys_alSet_of_not_has (l : List (α × β)) (k : α) (v : β)
    (h : ¬ alHas l k) : (alSet l k v).map Prod.fst = l.map Prod.fst ++ [k] := by
  induction l with
  | nil => simp [alSet]
  | cons p rest ih =>
    by_cases hp : p.1 = k
    · exact absurd (by simp [alHas, alGet, hp]) h
    · simp only [alHas, alGet, hp, if_neg, not_false_iff] at h
      simp [alSet, hp, ih h]

theorem keys_alDel (l : List (α × β)) (k : α) :
    (alDel l k).map Prod.fst = (l.map Prod.fst).erase k := by
  induction l with
  | nil => simp [alDel]
  | cons p rest ih =>
    by_cases hp : p.1 = k
    · simp [alDel, hp, List.erase_cons_head]
    · simp [alDel, hp, List.erase_cons_tail, ih, hp]

end AList

/-! ## C3 — sequence assignment -/

theorem counterAfter_eq (c0 n : Nat) : counterAfter c0 n = c0 + n := by
  induction n with
  | zero => rfl
  | succ n ih => simp [counterAfter, publishSeq, ih]; omega

/-- C3: in the linearized history of publishes (sequence assignment is a
single atomic increment, so concurrent publishes serialize), an earlier
publish always receives a strictly smaller sequence than a later one, and
no two distinct publishes ever receive the same sequence. -/
theorem sequences_strictly_ordered_and_unique (c0 i j : Nat) (h : i < j) :
    assignedSeq c0 i < assignedSeq c0 j ∧ assignedSeq c0 i ≠ assignedSeq c0 j := by
  unfold assignedSeq publishSeq
  simp only [counterAfter_eq]
  omega

theorem sequences_strictly_ordered_and_unique_witness :
    0 < 1 ∧ (assignedSeq 0 0 < assignedSeq 0 1 ∧ assignedSeq 0 0 ≠ assignedSeq 0 1) :=
  ⟨by decide, sequences_strictly_ordered_and_unique 0 0 1 (by decide)⟩

/-! ## C4 — grace-period presence transitions -/

/-- C4: from any state with no pending grace timer, a disconnect followed
by a reconnect accepted before the timer fires produces zero offline
presence broadcasts (even when the cancelled timer later wakes up) and
leaves the user online; a disconnect after which the user stays away
until the timer fires produces exactly one offline broadcast and sets the
shared record to `is_online = false`. -/
theorem grace_period_absorption (s : PresenceState) (h : s.pending = none) :
    ((presenceRun s [.disconnect, .connect, .timerFire]).offlineBroadcasts
        = s.offlineBroadcasts
      ∧ (presenceRun s [.disconnect, .connect, .timerFire]).isOnline = true)
    ∧ ((presenceRun s [.disconnect, .timerFire]).offlineBroadcasts
        = s.offlineBroadcasts + 1
      ∧ (presenceRun s [.disconnect, .timerFire]).isOnline = false) := by
  simp [presenceRun, presenceStep, h]

theorem grace_period_absorption_witness :
    (PresenceState.pending ⟨true, none, true, 0, 0⟩ = none)
    ∧ (((presenceRun ⟨true, none, true, 0, 0⟩ [.disconnect, .connect, .timerFire]).offlineBroadcasts
          = PresenceState.offlineBroadcasts ⟨true, none, true, 0, 0⟩
        ∧ (presenceRun ⟨true, none, true, 0, 0⟩ [.disconnect, .connect, .timerFire]).isOnline = true)
      ∧ ((presenceRun ⟨true, none, true, 0, 0⟩ [.disconnect, .timerFire]).offlineBroadcasts
          = PresenceState.offlineBroadcasts ⟨true, none, true, 0, 0⟩ + 1
        ∧ (presenceRun ⟨true, none, true, 0, 0⟩ [.disconnect, .timerFire]).isOnline = false)) :=
  ⟨rfl, grace_period_absorption ⟨true, none, true, 0, 0⟩ rfl⟩

/-! ## C9 — participant cache capacity -/

/-- C9 at a failing input: with the cache exactly at its capacity of 100
entries, a miss whose DB lookup returns no participant rows is cached on
the path that skips the capacity check, growing the cache to 101 entries
— the capacity bound claimed for every insertion is violated. -/
theorem cache_capacity_exceeded_on_empty_fetch :
    (((List.range CACHE_MAX_SIZE).map (fun i => (i, ((0 : Int), [1])))).length
        = CACHE_MAX_SIZE)
    ∧ ((getChatParticipants
          ((List.range CACHE_MAX_SIZE).map (fun i => (i, ((0 : Int), [1]))))
          0 200 []).2.length = CACHE_MAX_SIZE + 1) := by decide

/-! ## C2 — replay / catch-up -/

theorem parseIntArg_startArg (since : Int) :
    parseIntArg (zrangeStartArg since) = none := by
  have h1 : ¬ (('(' : Char) = '-') := by decide
  have h2 : ('(' : Char).isDigit = false := by decide
  unfold zrangeStartArg parseIntArg parseNatDigitsGo
  simp [h1, h2]

theorem parseIntArg_stopArg : parseIntArg zrangeStopArg = none := by decide

/-- C2: the claim states the intended read contract, but the code takes
the error path on every request: `sync_events` calls `redis.zrange` with
the bounds `f"({since}"` and `"+inf"` while omitting `byscore=True`, so
redis-py issues an index-based `ZRANGE` whose bounds fail the server's
integer parse; the call raises, the `except` at `events.py` lines
111-113 catches it, and the endpoint returns `[]` — for *every* log,
`since` and user.  At the failing input (user 7 addressed by sequences
10, 11, 12, replay since 9) the claim demands the three payloads in
order — exactly what `replaySpec` yields — while the code yields the
empty list. -/
theorem replay_always_empty_zrange_misuse :
    (∀ (log : EventLog) (since : Int) (uid : UserId),
        syncEvents log since uid = [])
    ∧ (∀ (log : EventLog) (since : Int),
        zrangeIndex log (zrangeStartArg since) zrangeStopArg
          = .error "value is not an integer or out of range")
    ∧ replaySpec exLog 9 7
        = [("payload10", 10), ("payload11", 11), ("payload12", 12)]
    ∧ syncEvents exLog 9 7 = [] := by
  have herr : ∀ (log : EventLog) (since : Int),
      zrangeIndex log (zrangeStartArg since) zrangeStopArg
        = .error "value is not an integer or out of range" := by
    intro log since
    unfold zrangeIndex
    rw [parseIntArg_startArg]
  refine ⟨?_, herr, by decide, by decide⟩
  intro log since uid
  unfold syncEvents
  rw [herr]

/-! ## C7 — typing-indicator exclusion -/

theorem mem_broadcastToUsers (active userIds : List UserId) (pl : Payload)
    (p : UserId) :
    OutMsg.deliver p pl ∈ broadcastToUsers active pl userIds
      ↔ (p ∈ userIds ∧ p ∈ active) := by
  unfold broadcastToUsers
  simp only [List.mem_map, List.mem_filter]
  constructor
  · rintro ⟨q, ⟨hq, hqa⟩, heq⟩
    cases heq
    exact ⟨hq, by simpa using hqa⟩
  · rintro ⟨hp, hact⟩
    exact ⟨p, ⟨hp, by simpa using hact⟩, rfl⟩

/-- C7: the typing broadcast for an event originated by `typingUser` is
delivered to a user `p` exactly when `p` is in the participant list the
manager resolves for the conversation, `p` is not the originator, and
`p` is locally connected — in particular it is never delivered to the
originator. -/
theorem typing_indicator_excludes_originator (s : ServerState) (now : Int)
    (chatId : ChatId) (typingUser : UserId) (isTyping : Bool) (p : UserId) :
    (OutMsg.deliver p (.typingIndicator chatId typingUser isTyping)
        ∈ (broadcastTypingIndicator s now chatId typingUser isTyping).2)
      ↔ (p ∈ (getChatParticipants s.participantCache now chatId s.dbParticipants).1
          ∧ p ≠ typingUser ∧ p ∈ s.activeConnections) := by
  unfold broadcastTypingIndicator
  dsimp only
  split_ifs with h1 h2
  · simp [h1]
  · simp only [List.not_mem_nil, false_iff]
    rintro ⟨hp, hne, _⟩
    have hmem : p ∈ (getChatParticipants s.participantCache now chatId
        s.dbParticipants).1.filter (fun q => q ≠ typingUser) :=
      List.mem_filter.mpr ⟨hp, by simpa using hne⟩
    rw [h2] at hmem
    exact absurd hmem (List.not_mem_nil p)
  · rw [mem_broadcastToUsers]
    simp only [List.mem_filter]
    constructor
    · rintro ⟨⟨hp, hne⟩, hact⟩
      exact ⟨hp, by simpa using hne, hact⟩
    · rintro ⟨hp, hne, hact⟩
      exact ⟨⟨hp, by simpa using hne⟩, hact⟩

/-! ## C10 — reaction toggling -/

theorem alGet_isSome_of_mem_keys {α β : Type} [DecidableEq α]
    {l : List (α × β)} {k : α} (h : k ∈ l.map Prod.fst) :
    (alGet l k).isSome := by
  induction l with
  | nil => simp at h
  | cons p rest ih =>
    by_cases hp : p.1 = k
    · simp [alGet, hp]
    · simp only [List.map_cons, List.mem_cons] at h
      rcases h with h | h


      · exact absurd h.symm hp
      · simp [alGet, hp, ih h]

/-- The toggle leaves every other emoji key untouched. -/
theorem alGet_toggle_ne (r : Reactions) (e : String) (u : UserId)
    {e' : String} (h : e' ≠ e) :
    alGet (toggleReaction r e u) e' = alGet r e' := by
  unfold toggleReaction
  dsimp only
  by_cases hh : alHas r e
  · simp only [hh, if_true]
    by_cases hm : u ∈ (alGet r e).getD []
    · simp only [hm, if_true]
      by_cases hE : ((alGet r e).getD []).erase u = []
      · simp only [hE, if_true]
        exact alGet_alDel_ne r h
      · simp only [hE, if_false]
        exact alGet_alSet_ne r _ h
    · simp only [hm, if_false]
      exact alGet_alSet_ne r _ h
  · simp only [hh, Bool.false_eq_true, if_false]
    have hnone : alGet r e = none := by
      by_contra hc
      exact hh (Option.ne_none_iff_isSome.mp hc)
    have hr1 : alGet (r ++ [(e, ([] : List UserId))]) e = some [] := by
      rw [alGet_append]
      simp [hnone, alGet]
    rw [hr1]
    simp only [Option.getD_some, List.not_mem_nil, if_false]
    rw [alGet_alSet_ne _ _ h, alGet_append]
    have hne2 : ¬ (e = e') := fun hc => h hc.symm
    have : alGet [(e, ([] : List UserId))] e' = none := by
      simp [alGet, hne2]
    rw [this]
    cases alGet r e' <;> rfl

/-- The toggle's effect on the toggled emoji key (keys unique). -/
theorem alGet_toggle_self (r : Reactions) (e : String) (u : UserId)
    (hk : (r.map Prod.fst).Nodup) :
    alGet (toggleReaction r e u) e =
      if u ∈ reactUsers r e then
        (if (reactUsers r e).erase u = [] then none
         else some ((reactUsers r e).erase u))
      else some (reactUsers r e ++ [u]) := by
  unfold toggleReaction reactUsers
  dsimp only
  by_cases hh : alHas r e
  · simp only [hh, if_true]
    by_cases hm : u ∈ (alGet r e).getD []
    · simp only [hm, if_true]
      by_cases hE : ((alGet r e).getD []).erase u = []
      · simp only [hE, if_true]
        exact alGet_alDel_self r e hk
      · simp only [hE, if_false]
        exact alGet_alSet_self r e _
    · simp only [hm, if_false]
      exact alGet_alSet_self r e _
  · simp only [hh, Bool.false_eq_true, if_false]
    have hnone : alGet r e = none := by
      by_contra hc
      exact hh (Option.ne_none_iff_isSome.mp hc)
    have hr1 : alGet (r ++ [(e, ([] : List UserId))]) e = some [] := by
      rw [alGet_append]
      simp [hnone, alGet]
    rw [hr1]
    simp only [Option.getD_some, List.not_mem_nil, if_false, hnone,
      Option.getD_none, List.nil_append]
    exact alGet_alSet_self _ e _

/-- The toggle keeps emoji keys unique. -/
theorem keysNodup_toggle (r : Reactions) (e : String) (u : UserId)
    (hk : (r.map Prod.fst).Nodup) :
    ((toggleReaction r e u).map Prod.fst).Nodup := by
  unfold toggleReaction
  dsimp only
  by_cases hh : alHas r e
  · simp only [hh, if_true]
    by_cases hm : u ∈ (alGet r e).getD []
    · simp only [hm, if_true]
      by_cases hE : ((alGet r e).getD []).erase u = []
      · simp only [hE, if_true]
        rw [keys_alDel]
        exact hk.erase e
      · simp only [hE, if_false]
        rw [keys_alSet_of_has r e _ hh]
        exact hk
    · simp only [hm, if_false]
      rw [keys_alSet_of_has r e _ hh]
      exact hk
  · simp only [hh, Bool.false_eq_true, if_false]
    have hnone : alGet r e = none := by
      by_contra hc
      exact hh (Option.ne_none_iff_isSome.mp hc)
    have hr1 : alGet (r ++ [(e, ([] : List UserId))]) e = some [] := by
      rw [alGet_append]
      simp [hnone, alGet]
    rw [hr1]
    simp only [Option.getD_some, List.not_mem_nil, if_false]
    have hr1has : alHas (r ++ [(e, ([] : List UserId))]) e := by
      simp [alHas, hr1]
    rw [keys_alSet_of_has _ e _ hr1has]
    rw [List.map_append]
    have hnotk : e ∉ r.map Prod.fst := by
      intro hc
      exact hh (alGet_isSome_of_mem_keys hc)
    simp only [List.map_cons, List.map_nil]
    exact List.Nodup.append hk (List.nodup_singleton e)
      (by simpa [List.disjoint_singleton] using hnotk)

/-- Values stored in a well-keyed reactions map are found by `alGet`. -/
theorem reactUsers_spec {r : Reactions} {e : String} {v : List UserId}
    (h : alGet r e = some v) : (e, v) ∈ r := mem_of_alGet h

/-- C10 (amended): toggling the same (user, emoji) twice restores the
reactions mapping up to ordering — every emoji ends up with exactly the
same set of reacting users as before (the source appends the re-added
user at the end of the list, so exact list equality can be lost) — and
after any single toggle no emoji key maps to an empty user list. -/
theorem reaction_toggle_involutive_up_to_order (r : Reactions) (e : String)
    (u : UserId) (hwf : ReactionsWF r) :
    (∀ e' u', u' ∈ reactUsers (toggleReaction (toggleReaction r e u) e u) e'
        ↔ u' ∈ reactUsers r e')
    ∧ (∀ e', alGet (toggleReaction r e u) e' ≠ some []) := by
  obtain ⟨hk, hvals, hnonempty⟩ := hwf
  have hk1 : ((toggleReaction r e u).map Prod.fst).Nodup := keysNodup_toggle r e u hk
  have hv : (reactUsers r e).Nodup := by
    unfold reactUsers
    cases hg : alGet r e with
    | none => simp
    | some w => simpa using hvals (e, w) (mem_of_alGet hg)
  constructor
  · intro e' u'
    by_cases he : e' = e
    · subst he
      have h1 := alGet_toggle_self r e' u hk
      by_cases hm : u ∈ reactUsers r e'
      · by_cases hE : (reactUsers r e').erase u = []
        · -- the user's removal empties the list: the key is deleted, the
          -- second toggle re-creates it with exactly that user
          rw [if_pos hm, if_pos hE] at h1
          have h2 := alGet_toggle_self (toggleReaction r e' u) e' u hk1
          have hru1 : reactUsers (toggleReaction r e' u) e' = [] := by
            unfold reactUsers; rw [h1]; rfl
          rw [hru1] at h2
          simp only [List.not_mem_nil, if_false, List.nil_append] at h2
          have hru2 : reactUsers (toggleReaction (toggleReaction r e' u) e' u) e'
              = [u] := by
            unfold reactUsers; rw [h2]; rfl
          rw [hru2]
          -- from nodup and an erase that empties the list, the original is [u]
          have hlen : (reactUsers r e').length = 1 := by
            have := List.length_erase_of_mem hm
            rw [hE] at this
            simp only [List.length_nil] at this
            have hpos : 0 < (reactUsers r e').length := List.length_pos.mpr
              (List.ne_nil_of_mem hm)
            omega
          obtain ⟨a, ha⟩ := List.length_eq_one.mp hlen
          have hau : a = u := by
            rw [ha] at hm
            simp only [List.mem_singleton] at hm
            exact hm.symm
          rw [ha, hau]
        · -- removal leaves other reactors: the second toggle appends the
          -- user back at the end
          rw [if_pos hm, if_neg hE] at h1
          have h2 := alGet_toggle_self (toggleReaction r e' u) e' u hk1
          have hru1 : reactUsers (toggleReaction r e' u) e'
              = (reactUsers r e').erase u := by
            unfold reactUsers; rw [h1]; rfl
          rw [hru1] at h2
          have hnm : u ∉ (reactUsers r e').erase u := by
            intro hc
            exact absurd (hv.mem_erase_iff.mp hc).1 (by simp)
          rw [if_neg hnm] at h2
          have hru2 : reactUsers (toggleReaction (toggleReaction r e' u) e' u) e'
              = (reactUsers r e').erase u ++ [u] := by
            unfold reactUsers; rw [h2]; rfl
          rw [hru2]
          constructor
          · intro hmem
            rcases List.mem_append.mp hmem with hmem | hmem
            · exact (hv.mem_erase_iff.mp hmem).2
            · simp only [List.mem_singleton] at hmem
              exact hmem ▸ hm
          · intro hmem
            by_cases hu' : u' = u
            · exact List.mem_append.mpr (Or.inr (by simp [hu']))
            · exact List.mem_append.mpr
                (Or.inl (hv.mem_erase_iff.mpr ⟨hu', hmem⟩))
      · -- the user was absent: appended by the first toggle, removed again
        -- from the end by the second
        rw [if_neg hm] at h1
        have h2 := alGet_toggle_self (toggleReaction r e' u) e' u hk1
        have hru1 : reactUsers (toggleReaction r e' u) e'
            = reactUsers r e' ++ [u] := by
          unfold reactUsers; rw [h1]; rfl
        rw [hru1] at h2
        have hm1 : u ∈ reactUsers r e' ++ [u] := List.mem_append.mpr (Or.inr (by simp))
        rw [if_pos hm1] at h2
        have herase : (reactUsers r e' ++ [u]).erase u = reactUsers r e' := by
          rw [List.erase_append_right _ hm]
          simp
        rw [herase] at h2
        by_cases hnil : reactUsers r e' = []
        · rw [if_pos hnil] at h2
          have hru2 : reactUsers (toggleReaction (toggleReaction r e' u) e' u) e'
              = [] := by
            unfold reactUsers; rw [h2]; rfl
          rw [hru2, hnil]
        · rw [if_neg hnil] at h2
          have hru2 : reactUsers (toggleReaction (toggleReaction r e' u) e' u) e'
              = reactUsers r e' := by
            unfold reactUsers; rw [h2]; rfl
          rw [hru2]
    · -- other emojis are untouched by both toggles
      have h1 := alGet_toggle_ne (toggleReaction r e u) e u he
      have h2 := alGet_toggle_ne r e u he
      unfold reactUsers
      rw [h1, h2]
  · intro e'
    by_cases he : e' = e
    · subst he
      have h1 := alGet_toggle_self r e' u hk
      by_cases hm : u ∈ reactUsers r e'
      · by_cases hE : (reactUsers r e').erase u = []
        · rw [if_pos hm, if_pos hE] at h1
          rw [h1]
          simp
        · rw [if_pos hm, if_neg hE] at h1
          rw [h1]
          simp only [ne_eq, Option.some_inj]
          exact hE
      · rw [if_neg hm] at h1
        rw [h1]
        simp
    · rw [alGet_toggle_ne r e u he]
      intro hc
      exact hnonempty (e', []) (mem_of_alGet hc) rfl

theorem reaction_toggle_involutive_up_to_order_witness :
    ReactionsWF [("👍", [1, 2])]
    ∧ ((∀ e' u', u' ∈ reactUsers
          (toggleReaction (toggleReaction [("👍", [1, 2])] "👍" 1) "👍" 1) e'
        ↔ u' ∈ reactUsers [("👍", [1, 2])] e')
      ∧ (∀ e', alGet (toggleReaction [("👍", [1, 2])] "👍" 1) e' ≠ some [])) :=
  ⟨by refine ⟨by decide, ?_, ?_⟩ <;> decide,
    reaction_toggle_involutive_up_to_order [("👍", [1, 2])] "👍" 1
      ⟨by decide, by decide, by decide⟩⟩

/-- C10 as stated is false on the code: user 1 toggles 👍 off a message
whose 👍 list is `[1, 2]`, then toggles it back on; the user is re-added
at the *end* (`reactions[emoji].append`), so the stored mapping becomes
`{"👍": [2, 1]}`, not the original `{"👍": [1, 2]}`. -/
theorem reaction_toggle_not_involutive :
    toggleReaction (toggleReaction [("👍", [1, 2])] "👍" 1) "👍" 1
      ≠ [("👍", [1, 2])] := by decide

/-! ## Characterizations of the `send_message` handler -/

/-- The broadcast step only refreshes the participant cache in the state. -/
theorem broadcastChatMessage_fst (s : ServerState) (now : Int) (chatId : ChatId)
    (msg : Message) :
    (broadcastChatMessage s now chatId msg).1
      = { s with participantCache :=
            (getChatParticipants s.participantCache now chatId s.dbParticipants).2 } := by
  unfold broadcastChatMessage
  dsimp only
  split_ifs <;> rfl

theorem broadcastReactionUpdate_fst (s : ServerState) (now : Int)
    (chatId : ChatId) (msg : Message) :
    (broadcastReactionUpdate s now chatId msg).1
      = { s with participantCache :=
            (getChatParticipants s.participantCache now chatId s.dbParticipants).2 } := by
  unfold broadcastReactionUpdate
  dsimp only
  split_ifs <;> rfl

/-- Whether a `send_message` submission passes the ceiling, the
participant check and the DB insert. -/
def sendAccepted (s : ServerState) (uid : UserId) (now : Int)
    (chatId : ChatId) (ok : Bool) : Prop :=
  (pruneWindow ((alGet s.msgTimestamps uid).getD []) now
      MESSAGE_WINDOW_SECONDS).length < MAX_MESSAGES_PER_WINDOW
    ∧ (chatId, uid) ∈ s.dbParticipants ∧ ok = true

instance (s : ServerState) (uid : UserId) (now : Int) (chatId : ChatId)
    (ok : Bool) : Decidable (sendAccepted s uid now chatId ok) := by
  unfold sendAccepted
  infer_instance

/-- The message row a `send_message` submission inserts. -/
def sentMessage (uid : UserId) (now : Int) (chatId : ChatId)
    (text : Option String) (ctid : Option String) (newId : MsgId) : Message :=
  { id := newId, chat_id := chatId, user_id := uid, text := text,
    client_temp_id := ctid, created_at := now, updated_at := now,
    reactions := [] }

/-- A message row is inserted exactly when the submission is accepted. -/
theorem handleSendMessage_dbMessages (s : ServerState) (uid : UserId)
    (now : Int) (chatId : ChatId) (text ctid : Option String) (newId : MsgId)
    (ok : Bool) :
    (handleSendMessage s uid now chatId text ctid newId ok).1.dbMessages
      = if sendAccepted s uid now chatId ok
        then s.dbMessages ++ [sentMessage uid now chatId text ctid newId]
        else s.dbMessages := by
  unfold handleSendMessage sendAccepted sentMessage
  dsimp only
  by_cases h1 : MAX_MESSAGES_PER_WINDOW
      ≤ (pruneWindow ((alGet s.msgTimestamps uid).getD []) now
          MESSAGE_WINDOW_SECONDS).length
  · rw [if_pos h1, if_neg (by omega)]
  · rw [if_neg h1]
    by_cases h2 : (chatId, uid) ∈ s.dbParticipants
    · rw [if_pos h2]
      cases ok with
      | true =>
        rw [if_pos rfl, if_pos ⟨by omega, h2, rfl⟩]
        rw [broadcastChatMessage_fst]
      | false =>
        rw [if_neg (by simp), if_neg (by simp)]
    · rw [if_neg h2, if_neg (by tauto)]

/-- The user's rate-limit timestamp list after a `send_message`
submission: the pruned window, extended by the current time exactly when
the submission was accepted. -/
theorem handleSendMessage_msgTimestamps (s : ServerState) (uid : UserId)
    (now : Int) (chatId : ChatId) (text ctid : Option String) (newId : MsgId)
    (ok : Bool) :
    alGet (handleSendMessage s uid now chatId text ctid newId ok).1.msgTimestamps
        uid
      = some (if sendAccepted s uid now chatId ok
          then pruneWindow ((alGet s.msgTimestamps uid).getD []) now
                MESSAGE_WINDOW_SECONDS ++ [now]
          else pruneWindow ((alGet s.msgTimestamps uid).getD []) now
                MESSAGE_WINDOW_SECONDS) := by
  unfold handleSendMessage sendAccepted
  dsimp only
  by_cases h1 : MAX_MESSAGES_PER_WINDOW
      ≤ (pruneWindow ((alGet s.msgTimestamps uid).getD []) now
          MESSAGE_WINDOW_SECONDS).length
  · rw [if_pos h1, if_neg (by omega)]
    exact alGet_alSet_self _ _ _
  · rw [if_neg h1]
    by_cases h2 : (chatId, uid) ∈ s.dbParticipants
    · rw [if_pos h2]
      cases ok with
      | true =>
        rw [if_pos rfl, if_pos ⟨by omega, h2, rfl⟩]
        rw [broadcastChatMessage_fst]
        exact alGet_alSet_self _ _ _
      | false =>
        rw [if_neg (by simp), if_neg (by simp)]
        exact alGet_alSet_self _ _ _
    · rw [if_neg h2, if_neg (by tauto)]
      exact alGet_alSet_self _ _ _

/-- The frames an accepted `send_message` submission emits: exactly the
`new_message` broadcast to the locally connected members of the
conversation's resolved participant list. -/
theorem handleSendMessage_outputs_accepted (s : ServerState) (uid : UserId)
    (now : Int) (chatId : ChatId) (text ctid : Option String) (newId : MsgId)
    (h1 : (pruneWindow ((alGet s.msgTimestamps uid).getD []) now
        MESSAGE_WINDOW_SECONDS).length < MAX_MESSAGES_PER_WINDOW)
    (h2 : (chatId, uid) ∈ s.dbParticipants) :
    (handleSendMessage s uid now chatId text ctid newId true).2
      = (if (getChatParticipants s.participantCache now chatId
              s.dbParticipants).1 = []
         then []
         else broadcastToUsers s.activeConnections
            (.newMessage (sentMessage uid now chatId text ctid newId) chatId)
            (getChatParticipants s.participantCache now chatId
              s.dbParticipants).1) := by
  unfold handleSendMessage sentMessage broadcastChatMessage
  dsimp only
  rw [if_neg (not_le.mpr h1), if_pos h2, if_pos rfl]
  split_ifs <;> rfl

/-- Counting deliveries of one payload to one connected user. -/
theorem countP_broadcastToUsers (active userIds : List UserId) (pl : Payload)
    (p : UserId) (hp : p ∈ active) :
    (broadcastToUsers active pl userIds).countP (fun o => o = OutMsg.deliver p pl)
      = userIds.countP (fun u => u = p) := by
  unfold broadcastToUsers
  rw [List.countP_map]
  rw [List.countP_filter]
  apply List.countP_congr
  intro u _
  by_cases hu : u = p
  · subst hu
    simp [hp]
  · simp [hu, fun hc : OutMsg.deliver u pl = OutMsg.deliver p pl =>
      hu (by cases hc; rfl)]

/-! ## C1 — duplicate `client_temp_id` submissions -/

/-- C1 as stated is false on the code: twice submitting `send_message`
with `client_temp_id = "t1"` from user 1 in the two-member chat 5 stores
*two* message rows carrying that client id and delivers *two*
`new_message` broadcasts to the partner (user 2) — neither handler path
ever consults `client_temp_id`, and there is no idempotency store in the
repository. -/
theorem duplicate_client_temp_id_double_insert :
    (((handleSendMessage
          (handleSendMessage twoUserState 1 0 5 (some "hi") (some "t1") 100 true).1
          1 1 5 (some "hi") (some "t1") 101 true).1.dbMessages.filter
        (fun m => m.client_temp_id = some "t1")).length = 2)
    ∧ (((handleSendMessage twoUserState 1 0 5 (some "hi") (some "t1") 100 true).2
          ++ (handleSendMessage
              (handleSendMessage twoUserState 1 0 5 (some "hi") (some "t1") 100 true).1
              1 1 5 (some "hi") (some "t1") 101 true).2).countP
        (isNewMessageDeliveredTo 2) = 2) := by decide

/-- C1 (amended): the server performs no deduplication on
`client_temp_id` — *every* accepted `send_message` submission, including
one whose `client_temp_id` equals that of an already stored message,
inserts one further message row carrying that client id (under a fresh
server id) and emits its own `new_message` broadcast: each locally
connected user receives it once per occurrence in the resolved
participant list. -/
theorem send_message_never_deduplicates (s : ServerState) (uid : UserId)
    (now : Int) (chatId : ChatId) (text ctid : Option String) (newId : MsgId)
    (p : UserId)
    (h1 : (pruneWindow ((alGet s.msgTimestamps uid).getD []) now
        MESSAGE_WINDOW_SECONDS).length < MAX_MESSAGES_PER_WINDOW)
    (h2 : (chatId, uid) ∈ s.dbParticipants)
    (hp : p ∈ s.activeConnections) :
    (((handleSendMessage s uid now chatId text ctid newId true).1.dbMessages.filter
        (fun m => m.client_temp_id = ctid)).length
      = (s.dbMessages.filter (fun m => m.client_temp_id = ctid)).length + 1)
    ∧ ((handleSendMessage s uid now chatId text ctid newId true).2.countP
        (fun o => o = OutMsg.deliver p
          (.newMessage (sentMessage uid now chatId text ctid newId) chatId))
      = ((getChatParticipants s.participantCache now chatId
            s.dbParticipants).1).countP (fun u => u = p)) := by
  have hacc : sendAccepted s uid now chatId true := ⟨h1, h2, rfl⟩
  constructor
  · rw [handleSendMessage_dbMessages]
    rw [if_pos hacc]
    rw [List.filter_append]
    simp [sentMessage]
  · rw [handleSendMessage_outputs_accepted s uid now chatId text ctid newId h1 h2]
    by_cases hnil : (getChatParticipants s.participantCache now chatId
        s.dbParticipants).1 = []
    · rw [if_pos hnil, hnil]
      simp
    · rw [if_neg hnil]
      exact countP_broadcastToUsers _ _ _ _ hp

theorem send_message_never_deduplicates_witness :
    ((pruneWindow ((alGet twoUserState.msgTimestamps 1).getD []) 0
        MESSAGE_WINDOW_SECONDS).length < MAX_MESSAGES_PER_WINDOW
      ∧ ((5 : ChatId), (1 : UserId)) ∈ twoUserState.dbParticipants
      ∧ (2 : UserId) ∈ twoUserState.activeConnections)
    ∧ ((((handleSendMessage twoUserState 1 0 5 (some "hi") (some "t1") 100
            true).1.dbMessages.filter
          (fun m => m.client_temp_id = some "t1")).length
        = (twoUserState.dbMessages.filter
            (fun m => m.client_temp_id = some "t1")).length + 1)
      ∧ ((handleSendMessage twoUserState 1 0 5 (some "hi") (some "t1") 100
            true).2.countP
          (fun o => o = OutMsg.deliver 2
            (.newMessage (sentMessage 1 0 5 (some "hi") (some "t1") 100) 5))
        = ((getChatParticipants twoUserState.participantCache 0 5
              twoUserState.dbParticipants).1).countP (fun u => u = 2))) :=
  ⟨⟨by decide, by decide, by decide⟩,
    send_message_never_deduplicates twoUserState 1 0 5 (some "hi") (some "t1")
      100 2 (by decide) (by decide) (by decide)⟩

/-! ## C6 — acknowledgement of accepted sends -/

/-- C6 as stated is false on the code: this `send_message` submission is
accepted (a row is stored), yet no frame of any kind with event type
`message_ack` is emitted — the WS handler never sends one. -/
theorem accepted_send_emits_no_message_ack :
    ((handleSendMessage twoUserState 1 0 5 (some "hi") (some "t1") 100
        true).1.dbMessages.length = 1)
    ∧ ((handleSendMessage twoUserState 1 0 5 (some "hi") (some "t1") 100
        true).2.countP (fun o => o.eventType = "message_ack") = 0) := by decide

/-- C6 (amended): an accepted `send_message` produces no `message_ack`
event at all; the originating user — being a connected participant —
instead receives the `new_message` broadcast exactly once, and that
broadcast's message carries both the client's `client_temp_id` and the
server-assigned id. -/
theorem accepted_send_acknowledged_only_by_broadcast (s : ServerState)
    (uid : UserId) (now : Int) (chatId : ChatId) (text ctid : Option String)
    (newId : MsgId)
    (h1 : (pruneWindow ((alGet s.msgTimestamps uid).getD []) now
        MESSAGE_WINDOW_SECONDS).length < MAX_MESSAGES_PER_WINDOW)
    (h2 : (chatId, uid) ∈ s.dbParticipants)
    (hconn : uid ∈ s.activeConnections)
    (hone : ((getChatParticipants s.participantCache now chatId
        s.dbParticipants).1).countP (fun u => u = uid) = 1) :
    (∀ o ∈ (handleSendMessage s uid now chatId text ctid newId true).2,
        o.eventType ≠ "message_ack")
    ∧ ((handleSendMessage s uid now chatId text ctid newId true).2.countP
        (fun o => o = OutMsg.deliver uid
          (.newMessage (sentMessage uid now chatId text ctid newId) chatId)) = 1)
    ∧ (sentMessage uid now chatId text ctid newId).client_temp_id = ctid
    ∧ (sentMessage uid now chatId text ctid newId).id = newId := by
  rw [handleSendMessage_outputs_accepted s uid now chatId text ctid newId h1 h2]
  refine ⟨?_, ?_, rfl, rfl⟩
  · intro o ho
    by_cases hnil : (getChatParticipants s.participantCache now chatId
        s.dbParticipants).1 = []
    · rw [if_pos hnil] at ho
      exact absurd ho (List.not_mem_nil o)
    · rw [if_neg hnil] at ho
      unfold broadcastToUsers at ho
      obtain ⟨q, _, rfl⟩ := List.mem_map.mp ho
      intro hc
      simp [OutMsg.eventType, Payload.eventType] at hc
  · by_cases hnil : (getChatParticipants s.participantCache now chatId
        s.dbParticipants).1 = []
    · exfalso
      rw [hnil] at hone
      simp [List.countP, List.countP.go] at hone
    · rw [if_neg hnil]
      rw [countP_broadcastToUsers _ _ _ _ hconn]
      exact hone

theorem accepted_send_acknowledged_only_by_broadcast_witness :
    ((pruneWindow ((alGet twoUserState.msgTimestamps 1).getD []) 0
        MESSAGE_WINDOW_SECONDS).length < MAX_MESSAGES_PER_WINDOW
      ∧ ((5 : ChatId), (1 : UserId)) ∈ twoUserState.dbParticipants
      ∧ (1 : UserId) ∈ twoUserState.activeConnections
      ∧ ((getChatParticipants twoUserState.participantCache 0 5
            twoUserState.dbParticipants).1).countP (fun u => u = 1) = 1)
    ∧ ((∀ o ∈ (handleSendMessage twoUserState 1 0 5 (some "hi") (some "t1") 100
            true).2, o.eventType ≠ "message_ack")
      ∧ ((handleSendMessage twoUserState 1 0 5 (some "hi") (some "t1") 100
            true).2.countP
          (fun o => o = OutMsg.deliver 1
            (.newMessage (sentMessage 1 0 5 (some "hi") (some "t1") 100) 5)) = 1)
      ∧ (sentMessage 1 0 5 (some "hi") (some "t1") 100).client_temp_id = some "t1"
      ∧ (sentMessage 1 0 5 (some "hi") (some "t1") 100).id = 100) :=
  ⟨⟨by decide, by decide, by decide, by decide⟩,
    accepted_send_acknowledged_only_by_broadcast twoUserState 1 0 5 (some "hi")
      (some "t1") 100 (by decide) (by decide) (by decide) (by decide)⟩

/-! ## C8 — permission errors mutate nothing -/

/-- C8: a `send_message` or `toggle_reaction` submitted by a user who is
not a participant of the named conversation leaves the `messages` table
untouched (so no message row is inserted and no reaction is changed) and
produces exactly one frame: an explicit error event on the originating
connection — in particular no broadcast is delivered to anyone. -/
theorem nonparticipant_rejected_without_mutation (s : ServerState)
    (uid : UserId) (now : Int) (chatId : ChatId) (text ctid : Option String)
    (newId : MsgId) (ok : Bool) (messageId : MsgId) (emoji : String)
    (ok2 : Bool) (h : (chatId, uid) ∉ s.dbParticipants) :
    ((handleSendMessage s uid now chatId text ctid newId ok).1.dbMessages
        = s.dbMessages
      ∧ ∃ d, (handleSendMessage s uid now chatId text ctid newId ok).2
          = [.toOrigin "error" d])
    ∧ ((handleToggleReaction s uid now messageId chatId emoji ok2).1.dbMessages
        = s.dbMessages
      ∧ ∃ d, (handleToggleReaction s uid now messageId chatId emoji ok2).2
          = [.toOrigin "error" d]) := by
  refine ⟨⟨?_, ?_⟩, ?_, ?_⟩
  · rw [handleSendMessage_dbMessages]
    rw [if_neg (by intro hc; exact h hc.2.1)]
  · unfold handleSendMessage
    dsimp only
    by_cases hc : MAX_MESSAGES_PER_WINDOW
        ≤ (pruneWindow ((alGet s.msgTimestamps uid).getD []) now
            MESSAGE_WINDOW_SECONDS).length
    · rw [if_pos hc]
      exact ⟨_, rfl⟩
    · rw [if_neg hc, if_neg h]
      exact ⟨_, rfl⟩
  · unfold handleToggleReaction
    dsimp only
    by_cases he : emoji ∈ SUPPORTED_EMOJIS
    · rw [if_pos he]
      by_cases hc : MAX_REACTIONS_PER_WINDOW
          ≤ (pruneWindow ((alGet s.reactTimestamps uid).getD []) now
              REACTION_WINDOW_SECONDS).length
      · rw [if_pos hc]
      · rw [if_neg hc, if_neg h]
    · rw [if_neg he]
  · unfold handleToggleReaction
    dsimp only
    by_cases he : emoji ∈ SUPPORTED_EMOJIS
    · rw [if_pos he]
      by_cases hc : MAX_REACTIONS_PER_WINDOW
          ≤ (pruneWindow ((alGet s.reactTimestamps uid).getD []) now
              REACTION_WINDOW_SECONDS).length
      · rw [if_pos hc]
        exact ⟨_, rfl⟩
      · rw [if_neg hc, if_neg h]
        exact ⟨_, rfl⟩
    · rw [if_neg he]
      exact ⟨_, rfl⟩

theorem nonparticipant_rejected_without_mutation_witness :
    (((5 : ChatId), (3 : UserId)) ∉ twoUserState.dbParticipants)
    ∧ (((handleSendMessage twoUserState 3 0 5 (some "hi") none 100
          true).1.dbMessages = twoUserState.dbMessages
        ∧ ∃ d, (handleSendMessage twoUserState 3 0 5 (some "hi") none 100
            true).2 = [.toOrigin "error" d])
      ∧ ((handleToggleReaction twoUserState 3 0 77 5 "👍"
            true).1.dbMessages = twoUserState.dbMessages
        ∧ ∃ d, (handleToggleReaction twoUserState 3 0 77 5 "👍" true).2
            = [.toOrigin "error" d])) :=
  ⟨by decide,
    nonparticipant_rejected_without_mutation twoUserState 3 0 5 (some "hi")
      none 100 true 77 "👍" true (by decide)⟩

/-! ## C5 — the sliding-window rate limit -/

/-- Within a connection session (no disconnect, which would clear the
timestamp list), the accepted submissions in any sliding window stay
below the ceiling.  The induction carries: the user's stored timestamp
list is exactly the accepted times still inside the window of the last
submission time `c`, every accepted time is at most `c`, and every
window already respects the ceiling. -/
theorem rl_window_inv (uid : UserId) (events : List SessionEvent) :
    ∀ (s : ServerState) (acc : List Int) (c : Int),
      (∀ e ∈ events, e ≠ SessionEvent.disconnect) →
      List.Chain' (· ≤ ·) (c :: events.map SessionEvent.time) →
      (alGet s.msgTimestamps uid).getD []
          = acc.filter (fun t => c - t < MESSAGE_WINDOW_SECONDS) →
      (∀ t ∈ acc, t ≤ c) →
      (∀ a, countWindow acc a ≤ MAX_MESSAGES_PER_WINDOW) →
      ∀ a, countWindow (acc ++ acceptedTimes uid s events) a
        ≤ MAX_MESSAGES_PER_WINDOW := by
  induction events with
  | nil =>
    intro s acc c _ _ _ _ hbound a
    simpa [acceptedTimes] using hbound a
  | cons e rest ih =>
    intro s acc c hsub hchain hview hle hbound a
    match e with
    | .disconnect => exact absurd rfl (hsub _ (List.mem_cons_self _ _))
    | .submit now chatId text ctid newId ok =>
      have hchain2 : List.Chain' (· ≤ ·)
          (c :: now :: rest.map SessionEvent.time) := by
        simpa [SessionEvent.time] using hchain
      have hcnow : c ≤ now := (List.chain'_cons.mp hchain2).1
      have hchain' : List.Chain' (· ≤ ·) (now :: rest.map SessionEvent.time) :=
        (List.chain'_cons.mp hchain2).2
      have hsub' : ∀ e' ∈ rest, e' ≠ SessionEvent.disconnect :=
        fun e' he' => hsub e' (List.mem_cons_of_mem _ he')
      -- the pruned list this submission computes
      have hprune : pruneWindow ((alGet s.msgTimestamps uid).getD []) now
            MESSAGE_WINDOW_SECONDS
          = acc.filter (fun t => now - t < MESSAGE_WINDOW_SECONDS) := by
        rw [hview]
        unfold pruneWindow
        rw [List.filter_filter]
        apply List.filter_congr
        intro t ht
        have h1 : t ≤ c := hle t ht
        by_cases hw : now - t < MESSAGE_WINDOW_SECONDS
        · have h2 : c - t < MESSAGE_WINDOW_SECONDS := by omega
          simp [hw, h2]
        · simp [hw]
      have hts := handleSendMessage_msgTimestamps s uid now chatId text ctid
        newId ok
      have hdb := handleSendMessage_dbMessages s uid now chatId text ctid
        newId ok
      by_cases hacc : sendAccepted s uid now chatId ok
      · -- accepted: the time is recorded and counted
        rw [if_pos hacc] at hts hdb
        have hlen : s.dbMessages.length
            < (handleSendMessage s uid now chatId text ctid newId
                ok).1.dbMessages.length := by
          rw [hdb]; simp
        have hstep : acceptedTimes uid s
              (SessionEvent.submit now chatId text ctid newId ok :: rest)
            = [now] ++ acceptedTimes uid
                (handleSendMessage s uid now chatId text ctid newId ok).1
                rest := by
          simp only [acceptedTimes, sessionStep, SessionEvent.time,
            if_pos hlen]
        have hview' : (alGet (handleSendMessage s uid now chatId text ctid
              newId ok).1.msgTimestamps uid).getD []
            = (acc ++ [now]).filter
                (fun t => now - t < MESSAGE_WINDOW_SECONDS) := by
          rw [hts]
          simp only [Option.getD_some]
          rw [hprune, List.filter_append]
          have h0 : (0 : Int) < MESSAGE_WINDOW_SECONDS := by decide
          simp only [List.filter_cons, List.filter_nil]
          have : (now - now < MESSAGE_WINDOW_SECONDS) := by omega
          simp [this, h0]
        have hle' : ∀ t ∈ acc ++ [now], t ≤ now := by
          intro t ht
          rcases List.mem_append.mp ht with ht | ht
          · exact le_trans (hle t ht) hcnow
          · simp only [List.mem_singleton] at ht
            omega
        have hbound' : ∀ a', countWindow (acc ++ [now]) a'
            ≤ MAX_MESSAGES_PER_WINDOW := by
          intro a'
          unfold countWindow
          rw [List.countP_append]
          by_cases hin : a' < now ∧ now ≤ a' + MESSAGE_WINDOW_SECONDS
          · have hc1 : (([now] : List Int)).countP
                (fun t => a' < t ∧ t ≤ a' + MESSAGE_WINDOW_SECONDS) = 1 := by
              simp [hin.1, hin.2]
            have hmono : acc.countP
                  (fun t => a' < t ∧ t ≤ a' + MESSAGE_WINDOW_SECONDS)
                ≤ acc.countP (fun t => now - t < MESSAGE_WINDOW_SECONDS) := by
              apply List.countP_mono_left
              intro t _ hpt
              simp only [decide_eq_true_eq] at hpt ⊢
              omega
            have hplen : acc.countP (fun t => now - t < MESSAGE_WINDOW_SECONDS)
                < MAX_MESSAGES_PER_WINDOW := by
              rw [List.countP_eq_length_filter]
              rw [← hprune]
              exact hacc.1
            omega
          · have hc0 : (([now] : List Int)).countP
                (fun t => a' < t ∧ t ≤ a' + MESSAGE_WINDOW_SECONDS) = 0 := by
              simp only [List.countP_cons, List.countP_nil]
              have : ¬ (a' < now ∧ now ≤ a' + MESSAGE_WINDOW_SECONDS) := hin
              simp [this]
            have := hbound a'
            unfold countWindow at this
            omega
        have hres := ih (handleSendMessage s uid now chatId text ctid newId
            ok).1 (acc ++ [now]) now hsub' hchain' hview' hle' hbound' a
        rw [hstep]
        rw [← List.append_assoc]
        exact hres
      · -- rejected: nothing recorded, nothing counted
        rw [if_neg hacc] at hts hdb
        have hlen : ¬ (s.dbMessages.length
            < (handleSendMessage s uid now chatId text ctid newId
                ok).1.dbMessages.length) := by
          rw [hdb]; omega
        have hstep : acceptedTimes uid s
              (SessionEvent.submit now chatId text ctid newId ok :: rest)
            = acceptedTimes uid
                (handleSendMessage s uid now chatId text ctid newId ok).1
                rest := by
          simp only [acceptedTimes, sessionStep, SessionEvent.time,
            if_neg hlen, List.nil_append]
        have hview' : (alGet (handleSendMessage s uid now chatId text ctid
              newId ok).1.msgTimestamps uid).getD []
            = acc.filter (fun t => now - t < MESSAGE_WINDOW_SECONDS) := by
          rw [hts]
          simp only [Option.getD_some]
          exact hprune
        have hle' : ∀ t ∈ acc, t ≤ now := fun t ht =>
          le_trans (hle t ht) hcnow
        have hres := ih (handleSendMessage s uid now chatId text ctid newId
            ok).1 acc now hsub' hchain' hview' hle' hbound a
        rw [hstep]
        exact hres

/-- C5 as stated is false on the code: `websocket_endpoint`'s `finally`
block deletes the user's rate-limit timestamps on disconnect, so twenty
submissions at t=0, a disconnect/reconnect, and twenty more at t=1 are
all forty accepted — twice the ceiling inside the single sliding window
(-30, 30]. -/
theorem rate_limit_window_exceeded_across_reconnect :
    countWindow (acceptedTimes 1 rlState rlTrace) (-30) = 40
    ∧ MAX_MESSAGES_PER_WINDOW < 40 := by decide

/-- C5 (amended): within one connection session (the per-user timestamp
list starts empty and no disconnect clears it), the number of accepted
`send_message` submissions inside any sliding window of
`MESSAGE_WINDOW_SECONDS` never exceeds `MAX_MESSAGES_PER_WINDOW`;
a submission over the ceiling is answered with exactly the throttling
error frame and stores nothing; and the user's stored timestamp list
gains the submission time exactly when the submission is admitted
(accepted and persisted). -/
theorem rate_limit_sliding_window_per_session (uid : UserId) (s : ServerState)
    (events : List SessionEvent) (a : Int)
    (hsub : ∀ e ∈ events, e ≠ SessionEvent.disconnect)
    (hinit : alGet s.msgTimestamps uid = none)
    (hchain : List.Chain' (· ≤ ·) (events.map SessionEvent.time)) :
    countWindow (acceptedTimes uid s events) a ≤ MAX_MESSAGES_PER_WINDOW
    ∧ (∀ (s' : ServerState) (now : Int) (chatId : ChatId)
          (text ctid : Option String) (newId : MsgId) (ok : Bool),
        MAX_MESSAGES_PER_WINDOW
            ≤ (pruneWindow ((alGet s'.msgTimestamps uid).getD []) now
                MESSAGE_WINDOW_SECONDS).length →
        (handleSendMessage s' uid now chatId text ctid newId ok).2
            = [.toOrigin "error"
                "You are sending messages too quickly. Please wait a moment."]
          ∧ (handleSendMessage s' uid now chatId text ctid newId
              ok).1.dbMessages = s'.dbMessages)
    ∧ (∀ (s' : ServerState) (now : Int) (chatId : ChatId)
          (text ctid : Option String) (newId : MsgId) (ok : Bool),
        alGet (handleSendMessage s' uid now chatId text ctid newId
              ok).1.msgTimestamps uid
          = some (if sendAccepted s' uid now chatId ok
              then pruneWindow ((alGet s'.msgTimestamps uid).getD []) now
                    MESSAGE_WINDOW_SECONDS ++ [now]
              else pruneWindow ((alGet s'.msgTimestamps uid).getD []) now
                    MESSAGE_WINDOW_SECONDS)) := by
  refine ⟨?_, ?_, ?_⟩
  · cases events with
    | nil => simp [acceptedTimes, countWindow]
    | cons e rest =>
      have hchain2 : List.Chain' (· ≤ ·)
          (e.time :: (e :: rest).map SessionEvent.time) := by
        rw [List.map_cons]
        exact List.chain'_cons.mpr ⟨le_refl _, by simpa using hchain⟩
      have hres := rl_window_inv uid (e :: rest) s [] e.time hsub hchain2
        (by simp [hinit]) (by simp)
        (by intro a'; simp [countWindow]) a
      simpa using hres
  · intro s' now chatId text ctid newId ok hover
    constructor
    · unfold handleSendMessage
      dsimp only
      rw [if_pos hover]
    · rw [handleSendMessage_dbMessages]
      rw [if_neg (fun hc => absurd hc.1 (not_lt.mpr hover))]
  · intro s' now chatId text ctid newId ok
    exact handleSendMessage_msgTimestamps s' uid now chatId text ctid newId ok

theorem rate_limit_sliding_window_per_session_witness :
    ((∀ e ∈ [SessionEvent.submit 0 5 none none 100 true,
          SessionEvent.submit 0 5 none none 101 true],
        e ≠ SessionEvent.disconnect)
      ∧ alGet rlState.msgTimestamps 1 = none
      ∧ List.Chain' (· ≤ ·)
          (([SessionEvent.submit 0 5 none none 100 true,
              SessionEvent.submit 0 5 none none 101 true]).map
            SessionEvent.time))
    ∧ (countWindow
          (acceptedTimes 1 rlState
            [SessionEvent.submit 0 5 none none 100 true,
              SessionEvent.submit 0 5 none none 101 true]) (-30)
        ≤ MAX_MESSAGES_PER_WINDOW
      ∧ (∀ (s' : ServerState) (now : Int) (chatId : ChatId)
            (text ctid : Option String) (newId : MsgId) (ok : Bool),
          MAX_MESSAGES_PER_WINDOW
              ≤ (pruneWindow ((alGet s'.msgTimestamps 1).getD []) now
                  MESSAGE_WINDOW_SECONDS).length →
          (handleSendMessage s' 1 now chatId text ctid newId ok).2
              = [.toOrigin "error"
                  "You are sending messages too quickly. Please wait a moment."]
            ∧ (handleSendMessage s' 1 now chatId text ctid newId
                ok).1.dbMessages = s'.dbMessages)
      ∧ (∀ (s' : ServerState) (now : Int) (chatId : ChatId)
            (text ctid : Option String) (newId : MsgId) (ok : Bool),
          alGet (handleSendMessage s' 1 now chatId text ctid newId
                ok).1.msgTimestamps 1
            = some (if sendAccepted s' 1 now chatId ok
                then pruneWindow ((alGet s'.msgTimestamps 1).getD []) now
                      MESSAGE_WINDOW_SECONDS ++ [now]
                else pruneWindow ((alGet s'.msgTimestamps 1).getD []) now
                      MESSAGE_WINDOW_SECONDS))) :=
  ⟨⟨by decide, by decide, by exact List.chain'_pair.mpr (le_refl 0)⟩,
    rate_limit_sliding_window_per_session 1 rlState
      [SessionEvent.submit 0 5 none none 100 true,
        SessionEvent.submit 0 5 none none 101 true] (-30)
      (by decide) (by decide)
      (by exact List.chain'_pair.mpr (le_refl 0))⟩

end ChirpChat
